import Mathlib

/-!
Shallow embedding of the gridfinity drawer-organizer generator
(`gridfinity.py`): the validated `Properties` configuration, the bucket
layout computation of `draw_buckets`, and the pipeline of solid-model
stages of `make_box`.  Solid-model operations of the geometry kernel are
opaque: each stage records the operation it performs, with the numeric
parameters the source passes, on an operation list threaded through the
pipeline.  Python floats are embedded as exact rationals and Python's
`round(x, 2)` as round-half-to-even on rationals.
-/

/-- A row entry of `divisions`: either a list of weights or an integer
drawer count (`List[Union[List[float], int]]` in the source). -/
abbrev Division := Sum (List ℚ) Int

/-- The `Properties` dataclass of gridfinity.py (lines 28-64), before the
`__post_init__` validation runs. -/
structure Properties where
  units_wide : Int
  units_long : Int
  units_high : Int
  divisions : List Division
  draw_finger_scoop : Bool
  draw_label_ledge : Bool
  make_magnet_hole : Bool
  make_screw_hole : Bool
deriving DecidableEq

/-- `Properties.height` (line 41): `units_high * 7 - 5.6`. -/
def Properties.height (p : Properties) : ℚ := (p.units_high : ℚ) * 7 - 5.6

/-- `Properties.length` (line 45): `units_long * 42`. -/
def Properties.length (p : Properties) : ℚ := (p.units_long : ℚ) * 42

/-- `Properties.width` (line 49): `units_wide * 42`. -/
def Properties.width (p : Properties) : ℚ := (p.units_wide : ℚ) * 42

/-- The two exception classes raised by `Properties.__post_init__`. -/
inductive ConfigError where
  | invalidPropertyError
  | incorrectNumberOfRowsError
deriving DecidableEq

/-- `Properties.__post_init__` (lines 52-64): the three validation checks,
in source order. -/
def postInit (p : Properties) : Except ConfigError Unit :=
  if p.units_wide < 1 ∨ p.units_long < 1 then
    Except.error ConfigError.invalidPropertyError
  else if p.units_high < 2 then
    Except.error ConfigError.invalidPropertyError
  else if (p.divisions.length : Int) ≠ p.units_long then
    Except.error ConfigError.incorrectNumberOfRowsError
  else
    Except.ok ()

/-- A `Properties` value is valid when construction succeeds, i.e. the
`__post_init__` checks all pass. -/
def Valid (p : Properties) : Prop := postInit p = Except.ok ()

/-- `BOTTOM_THICKNESS` constant (line 9). -/
def BOTTOM_THICKNESS : ℚ := 2

/-- Round-half-to-even to an integer, the semantics of Python's `round`
on the exact rational value. -/
def roundHalfEven (q : ℚ) : ℤ :=
  if q - ⌊q⌋ = 1 / 2 then (if ⌊q⌋ % 2 = 0 then ⌊q⌋ else ⌊q⌋ + 1) else round q

/-- Python's `round(x, 2)`: round to two decimal places, ties to even. -/
def round2 (q : ℚ) : ℚ := ((roundHalfEven (q * 100) : ℚ)) / 100

/-- Normalization of a row of `divisions` (lines 108-109): an integer `n`
becomes `[1] * n`, i.e. `n` equal weights of 1. -/
def normalizeRow : Division → List ℚ
  | Sum.inl row => row
  | Sum.inr n => List.replicate n.toNat 1

/-- Drawer widths of one (normalized) row (lines 110-111):
`round(r / sum(row) * (width - (len(row) + 1)), 2)` for each weight `r`. -/
def rowWidths (W : ℚ) (row : List ℚ) : List ℚ :=
  row.map (fun r => round2 (r / row.sum * (W - ((row.length : ℚ) + 1))))

/-- The uniform bucket height of line 112:
`(length - (units_long + 1)) / units_long`. -/
def bucketHeight (L uL : ℚ) : ℚ := (L - (uL + 1)) / uL

/-- One drawer sketch (lines 117-131): a `width × height` rectangle with
3 mm corner fillets, translated by the composition of the two `moved`
calls.  `offX`/`offY` are the total translation of the rectangle center. -/
structure Sketch where
  rectW : ℚ
  rectH : ℚ
  filletR : ℚ
  offX : ℚ
  offY : ℚ
deriving DecidableEq

/-- Left edge of a drawer sketch. -/
def Sketch.left (s : Sketch) : ℚ := s.offX - s.rectW / 2

/-- Right edge of a drawer sketch. -/
def Sketch.right (s : Sketch) : ℚ := s.offX + s.rectW / 2

/-- Top edge of a drawer sketch. -/
def Sketch.top (s : Sketch) : ℚ := s.offY + s.rectH / 2

/-- The inner loop of `draw_buckets` (lines 114-133): walks the row's
width list carrying `x_origin`, emitting one sketch per drawer and
advancing `x_origin` by `width + 1`. -/
def drawRowSketches (W L h yo : ℚ) : List ℚ → ℚ → List Sketch
  | [], _ => []
  | w :: rest, xo =>
    { rectW := w, rectH := h, filletR := 3,
      offX := w / 2 + (-W / 2 + xo),
      offY := -h / 2 + (L / 2 - yo) } :: drawRowSketches W L h yo rest (xo + w + 1)

/-- The outer loop of `draw_buckets` (lines 107-135): walks `divisions`
carrying `y_origin`, resetting `x_origin` to 1 for each row and advancing
`y_origin` by `height + 1` after it. -/
def drawRowsSketches (W L uL : ℚ) : List Division → ℚ → List Sketch
  | [], _ => []
  | row :: rest, yo =>
    drawRowSketches W L (bucketHeight L uL) yo (rowWidths W (normalizeRow row)) 1
      ++ drawRowsSketches W L uL rest (yo + bucketHeight L uL + 1)

/-- All drawer sketches computed by `draw_buckets`, with the initial
origins `(x_origin, y_origin) = (1, 1)` of line 106. -/
def bucketSketches (p : Properties) : List Sketch :=
  drawRowsSketches p.width p.length (p.units_long : ℚ) p.divisions 1

/-- `small_drawer_width` constant (line 103). -/
def smallDrawerWidth : ℚ := 15

/-- The `is_drawer_too_small` flag of `draw_buckets` (lines 102, 114-116):
set when some computed width satisfies `width < small_drawer_width`
(strict comparison, line 115).  In the source the flag is set inside the
same loop that accumulates the sketches; it is a scan over the same
per-row width lists. -/
def smallDrawerFlag (p : Properties) : Bool :=
  p.divisions.any (fun row =>
    (rowWidths p.width (normalizeRow row)).any (fun w => decide (w < smallDrawerWidth)))

instance : DecidableEq (Except ConfigError Unit) := fun a b =>
  match a, b with
  | Except.ok x, Except.ok y => isTrue (by cases x; cases y; rfl)
  | Except.error e, Except.error f =>
      match decEq e f with
      | isTrue h => isTrue (by rw [h])
      | isFalse h => isFalse (by intro hh; cases hh; exact h rfl)
  | Except.ok _, Except.error _ => isFalse (by intro h; cases h)
  | Except.error _, Except.ok _ => isFalse (by intro h; cases h)

instance (p : Properties) : Decidable (Valid p) := by
  unfold Valid; infer_instance

/-- A 3-component vector. -/
structure Vec3 where
  x : ℚ
  y : ℚ
  z : ℚ
deriving DecidableEq

/-- One finger-scoop sketch of `draw_finger_scoops` (lines 234-249): a
square of side `scoop_radius` minus a quarter circle, translated by the
composition of the two `moved` calls. -/
structure ScoopSketch where
  radius : ℚ
  offX : ℚ
  offY : ℚ
deriving DecidableEq

/-- One label-ledge sketch of `draw_label_ledge` (lines 283-299): the
right-triangular notch with its `last_offset` correction, translated by
the composition of the two `moved` calls. -/
structure LedgeSketch where
  lastOffset : ℚ
  legLen : ℚ
  filletR : ℚ
  offX : ℚ
  offY : ℚ
deriving DecidableEq

/-- The opaque geometry-kernel operations the pipeline stages perform,
each recorded with the numeric parameters passed in the source. -/
inductive Op where
  | drawBasesOp (nx ny : Int)
  | bucketsBox (w l h edgeFillet : ℚ)
  | bucketsCut (sketches : List Sketch) (extrudeDepth : ℚ)
  | frontSurface (w thick h offY : ℚ)
  | fingerScoopCut (sketches : List ScoopSketch) (extrudeDepth : ℚ)
  | labelLedgeCut (sketches : List LedgeSketch) (extrudeDepth : ℚ)
  | mateLoft (w l outerFillet offZ : ℚ)
  | cboreHoles (pattern d cboreD cboreDepth depth : ℚ)
  | magnetHoles (pattern d depth : ℚ)
  | shaveShell (w l inset filletR : ℚ)
deriving DecidableEq

/-- The accumulated solid model: the ordered operations applied so far,
plus the mutable workplane state whose `zDir` the fastener stage touches
(line 315 of the source). -/
structure Workplane where
  ops : List Op
  zDir : Vec3
deriving DecidableEq

/-- A fresh `cq.Workplane()` on the XY plane. -/
def initialWorkplane : Workplane := { ops := [], zDir := ⟨0, 0, 1⟩ }

/-- `draw_bases` (lines 82-94): replicate the base tile on a
`units_wide × units_long` rectangular array. -/
def draw_bases (self : Workplane) (p : Properties) : Workplane :=
  { self with ops := self.ops ++ [Op.drawBasesOp p.units_wide p.units_long] }

/-- `draw_buckets` (lines 97-152): the outer box with 4 mm vertical-edge
fillets and the pocket cut extruding the drawer sketches by
`BOTTOM_THICKNESS - height`; the Bool is the `SmallDimensionsWarning`
raised when `is_drawer_too_small` (lines 137-141). -/
def draw_buckets (self : Workplane) (p : Properties) : Workplane × Bool :=
  ({ self with ops := self.ops ++
      [Op.bucketsBox p.width p.length p.height 4,
       Op.bucketsCut (bucketSketches p) (BOTTOM_THICKNESS - p.height)] },
   smallDrawerFlag p)

/-- `draw_front_surface` (lines 209-218): the 1.85 mm rib box at offset
`(0, -length/2 + 1)`. -/
def draw_front_surface (self : Workplane) (p : Properties) : Workplane :=
  { self with ops := self.ops ++
      [Op.frontSurface p.width 1.85 (p.height - 2) (-p.length / 2 + 1)] }

/-- The scoop sketches of `draw_finger_scoops` (lines 229-250), one per
row index `i` in `range(units_long)`. -/
def scoopSketches (p : Properties) : List ScoopSketch :=
  (List.range p.units_long.toNat).map (fun i =>
    let bucket_length := (p.length - ((p.units_long : ℚ) + 1)) / (p.units_long : ℚ)
    let scoop_radius := min (p.height * 0.6) (bucket_length * 0.9)
    { radius := scoop_radius,
      offX :=
        (scoop_radius / 2 - 0.5 * bucket_length * (p.units_long : ℚ) -
          ((⌊(p.units_long : ℚ) / 2⌋ : ℤ) : ℚ) +
          (if p.units_long % 2 = 0 then 0.5 else 0)) +
        ((i : ℚ) * (bucket_length + 1) + (if i = 0 then 1.6 else 0)),
      offY := scoop_radius / 2 - (p.height - BOTTOM_THICKNESS) / 2 })

/-- `draw_finger_scoops` (lines 221-257): a no-op when the flag is off
(lines 226-227), otherwise the scoop cut extruded by `width - 1`. -/
def draw_finger_scoops (self : Workplane) (p : Properties) : Workplane :=
  if !p.draw_finger_scoop then self
  else
    { self with ops := self.ops ++
        [Op.fingerScoopCut (scoopSketches p) (p.width - 1)] }

/-- The ledge sketches of `draw_label_ledge` (lines 280-300), one per row
index `i` in `range(units_long)`, with the `last_offset = 3` correction
on the last row. -/
def ledgeSketches (p : Properties) : List LedgeSketch :=
  (List.range p.units_long.toNat).map (fun i =>
    let bucket_length := (p.length - ((p.units_long : ℚ) + 1)) / (p.units_long : ℚ)
    let last_offset : ℚ := if i = p.units_long.toNat - 1 then 3 else 0
    { lastOffset := last_offset,
      legLen := 12 + 0.75,
      filletR := 0.6,
      offX :=
        (-0.5 - (0.5 * (p.units_long : ℚ) - 1) * (bucket_length + 1)) +
        ((i : ℚ) * (bucket_length + 1) - last_offset),
      offY := (p.height - BOTTOM_THICKNESS) / 2 })

/-- `draw_label_ledge` (lines 260-307): a no-op when the flag is off
(lines 265-266); when `height < ledge_length + 0.5` the input is returned
unchanged and the `CannotDrawLabelLedgesWarning` Bool is true (lines
272-277); otherwise the ledge cut is extruded by `width - 1.5`. -/
def draw_label_ledge (self : Workplane) (p : Properties) : Workplane × Bool :=
  if !p.draw_label_ledge then (self, false)
  else
    let ledge_length : ℚ := 12 + 0.75
    if p.height < ledge_length + 0.5 then (self, true)
    else
      ({ self with ops := self.ops ++
          [Op.labelLedgeCut (ledgeSketches p) (p.width - 1.5)] }, false)

/-- `draw_mate` (lines 155-206): the lofted stacking rim on a
`(width - 0.5) × (length - 0.5)` footprint with 3.75 mm outer fillet,
anchored at offset `height - 2.84` above the tagged base plane. -/
def draw_mate (self : Workplane) (p : Properties) : Workplane :=
  { self with ops := self.ops ++
      [Op.mateLoft (p.width - 0.5) (p.length - 0.5) 3.75 (p.height - 2.84)] }

/-- `draw_magnet_bore_holes` (lines 310-332): first mutates the
workplane's `zDir` to `(0, 0, -1)` (line 315), then returns unless one of
the hole flags is set; `make_screw_hole` selects the counterbored hole
`cboreHole(3, 6.5, 2.4, 6)` before `make_magnet_hole` selects the plain
`hole(6.5, 2.4)`, each at the corners of the 26 mm construction square. -/
def draw_magnet_bore_holes (self : Workplane) (p : Properties) : Workplane :=
  let self := { self with zDir := ⟨0, 0, -1⟩ }
  if !(p.make_magnet_hole || p.make_screw_hole) then self
  else if p.make_screw_hole then
    { self with ops := self.ops ++ [Op.cboreHoles 26 3 6.5 2.4 6] }
  else if p.make_magnet_hole then
    { self with ops := self.ops ++ [Op.magnetHoles 26 6.5 2.4] }
  else self

/-- `shave_outer_shell` (lines 334-350): the through cut between the
outer `width × length` rectangle and its 0.5 mm inset, filleted 3.75. -/
def shave_outer_shell (self : Workplane) (p : Properties) : Workplane :=
  { self with ops := self.ops ++ [Op.shaveShell p.width p.length 0.5 3.75] }

/-- Result of the `make_box` pipeline: the final model plus the two
non-fatal warnings the stages can raise. -/
structure BoxResult where
  box : Workplane
  smallDrawerWarning : Bool
  ledgeWarning : Bool
deriving DecidableEq

/-- `make_box` (lines 364-393): the strict linear pipeline of stages, in
source order. -/
def make_box (p : Properties) : BoxResult :=
  let wp := draw_bases initialWorkplane p
  let r1 := draw_buckets wp p
  let wp := draw_front_surface r1.1 p
  let wp := draw_finger_scoops wp p
  let r2 := draw_label_ledge wp p
  let wp := draw_mate r2.1 p
  let wp := draw_magnet_bore_holes wp p
  let wp := shave_outer_shell wp p
  { box := wp, smallDrawerWarning := r1.2, ledgeWarning := r2.2 }

/-- Recognizer for the two optional feature-cut operations. -/
def Op.isScoopOrLedgeCut : Op → Bool
  | Op.fingerScoopCut _ _ => true
  | Op.labelLedgeCut _ _ => true
  | _ => false

/-- Recognizer for the plain magnet bore operation. -/
def Op.isMagnetHole : Op → Bool
  | Op.magnetHoles _ _ _ => true
  | _ => false

/-- Positivity of one `divisions` entry, the invariant stated by the
design ("every weight/count > 0"): an integer count is positive, a weight
list is nonempty with positive weights. -/
def posWeights : Division → Bool
  | Sum.inl ws => !ws.isEmpty && ws.all (fun w => decide (0 < w))
  | Sum.inr n => decide (0 < n)

/-- Positivity of every `divisions` entry of a configuration. -/
def posDivisions (p : Properties) : Bool := p.divisions.all posWeights

/-- The sketches `draw_buckets` emits for row `k`, with the `y_origin`
value the outer loop has accumulated when it reaches that row. -/
def rowSketches (p : Properties) (k : Nat) : List Sketch :=
  drawRowSketches p.width p.length (bucketHeight p.length (p.units_long : ℚ))
    (1 + (k : ℚ) * (bucketHeight p.length (p.units_long : ℚ) + 1))
    (rowWidths p.width (normalizeRow (p.divisions.getD k (Sum.inr 0)))) 1

/-- The example configuration of generate.py (lines 3-32), with the hole
flags off. -/
def cfgA : Properties :=
  ⟨4, 3, 4, [Sum.inl [1, 2, 1], Sum.inr 3, Sum.inl [10, 90]], true, true, false, false⟩

/-- The configuration of generate.py with every feature flag off. -/
def cfgB : Properties :=
  ⟨4, 3, 4, [Sum.inl [1, 2, 1], Sum.inr 3, Sum.inl [10, 90]], false, false, false, false⟩

/-- A valid configuration whose first drawer width computes to exactly
15 mm: `width = 84`, available width `84 - 4 = 80`, weights `[3, 6, 7]`
summing to 16 give widths `[15, 30, 35]`. -/
def p15 : Properties := ⟨2, 1, 2, [Sum.inl [3, 6, 7]], false, false, false, false⟩

/-- A valid configuration with 43 drawers in one 42 mm row: the available
width `42 - 44 = -2` is negative, so the computed widths are negative and
the first drawer's width rounds to `-1.4`. -/
def pbad : Properties :=
  ⟨1, 1, 2, [Sum.inl (98 :: List.replicate 42 1)], false, false, false, false⟩

/-- A minimal valid configuration with every feature flag off. -/
def pFlagsOff : Properties := ⟨1, 1, 2, [Sum.inr 1], false, false, false, false⟩

/-- A valid one-row configuration, `units_high = 2` (height 8.4 mm), with
the label ledge enabled. -/
def pLow : Properties := ⟨1, 1, 2, [Sum.inr 1], false, true, false, false⟩

/-- A valid one-row configuration, `units_high = 3` (height 15.4 mm),
with the label ledge enabled. -/
def pHigh : Properties := ⟨1, 1, 3, [Sum.inr 1], false, true, false, false⟩

/-- A minimal valid configuration with both hole flags set. -/
def pBoth : Properties := ⟨1, 1, 2, [Sum.inr 1], false, false, true, true⟩

/-- A minimal valid two-drawer configuration with all flags off. -/
def pNine : Properties := ⟨1, 1, 2, [Sum.inr 2], false, false, false, false⟩

lemma abs_roundHalfEven_sub (q : ℚ) : |(roundHalfEven q : ℚ) - q| ≤ 1 / 2 := by
  unfold roundHalfEven
  split_ifs with h1 h2
  · have hq : (⌊q⌋ : ℚ) - q = -(1 / 2) := by linarith
    rw [hq, abs_neg, abs_of_nonneg] <;> norm_num
  · have hq : ((⌊q⌋ + 1 : ℤ) : ℚ) - q = 1 / 2 := by push_cast; linarith
    rw [hq, abs_of_nonneg] <;> norm_num
  · rw [abs_sub_comm]
    exact abs_sub_round q

lemma abs_round2_sub (q : ℚ) : |round2 q - q| ≤ 1 / 200 := by
  have h := abs_roundHalfEven_sub (q * 100)
  have heq : round2 q - q = ((roundHalfEven (q * 100) : ℚ) - q * 100) / 100 := by
    unfold round2; ring
  rw [heq, abs_div, abs_of_nonneg (by norm_num : (0:ℚ) ≤ 100)]
  linarith

lemma round2_nonneg (q : ℚ) (h : 0 ≤ q) : 0 ≤ round2 q := by
  have hrhe : 0 ≤ roundHalfEven (q * 100) := by
    have h100 : (0:ℚ) ≤ q * 100 := by positivity
    unfold roundHalfEven
    split_ifs with h1 h2
    · exact Int.floor_nonneg.mpr h100
    · have := Int.floor_nonneg.mpr h100; omega
    · rw [round_eq]
      exact Int.floor_nonneg.mpr (by linarith)
  unfold round2
  exact div_nonneg (by exact_mod_cast hrhe) (by norm_num)

/-- C2: `__post_init__` raises `InvalidPropertyError` when
`units_wide < 1` or `units_long < 1`, and when `units_high < 2`; it
raises `IncorrectNumberOfRowsError` when the dimension checks pass but
`len(divisions) != units_long`; and construction succeeds exactly when
`units_wide ≥ 1`, `units_long ≥ 1`, `units_high ≥ 2` and
`len(divisions) == units_long`. -/
theorem c2_validation :
    (∀ p : Properties, (p.units_wide < 1 ∨ p.units_long < 1) →
        postInit p = Except.error ConfigError.invalidPropertyError)
    ∧ (∀ p : Properties, p.units_high < 2 →
        postInit p = Except.error ConfigError.invalidPropertyError)
    ∧ (∀ p : Properties, 1 ≤ p.units_wide → 1 ≤ p.units_long → 2 ≤ p.units_high →
        (p.divisions.length : Int) ≠ p.units_long →
        postInit p = Except.error ConfigError.incorrectNumberOfRowsError)
    ∧ ∀ p : Properties, 1 ≤ p.units_wide → 1 ≤ p.units_long → 2 ≤ p.units_high →
        (p.divisions.length : Int) = p.units_long → postInit p = Except.ok () := by
  refine ⟨fun p h => ?_, fun p h => ?_, fun p h1 h2 h3 h4 => ?_, fun p h1 h2 h3 h4 => ?_⟩ <;>
    · unfold postInit
      split_ifs <;> first | rfl | omega

/-- C2 witness: `units_high = 1` fails with `InvalidPropertyError`,
`units_high = 2` succeeds, a row-count mismatch fails with
`IncorrectNumberOfRowsError`, and `units_wide = 0` fails with
`InvalidPropertyError`. -/
theorem c2_validation_witness :
    postInit ⟨1, 1, 1, [Sum.inr 1], false, false, false, false⟩
        = Except.error ConfigError.invalidPropertyError
    ∧ postInit pFlagsOff = Except.ok ()
    ∧ postInit ⟨1, 2, 2, [Sum.inr 1], false, false, false, false⟩
        = Except.error ConfigError.incorrectNumberOfRowsError
    ∧ postInit ⟨0, 1, 2, [Sum.inr 1], false, false, false, false⟩
        = Except.error ConfigError.invalidPropertyError :=
  ⟨c2_validation.2.1 _ (by decide),
   c2_validation.2.2.2 pFlagsOff (by decide) (by decide) (by decide) (by decide),
   c2_validation.2.2.1 _ (by decide) (by decide) (by decide) (by decide),
   c2_validation.1 _ (Or.inl (by decide))⟩

/-- C5 (code evaluated at the failing input): `p15` is a valid
configuration whose computed drawer widths are `[15, 30, 35]` — one
drawer width is exactly 15 mm, i.e. `≤ 15` — yet `draw_buckets` does not
raise the small-drawer warning, because line 115 of the source compares
with strict `<` while the warning message itself (line 139) and the spec
say "less than or equal to".  The full layout is still produced. -/
theorem c5_small_drawer_strict_at_15 :
    Valid p15
    ∧ (bucketSketches p15).map Sketch.rectW = [15, 30, 35]
    ∧ (15 : ℚ) ≤ smallDrawerWidth
    ∧ smallDrawerFlag p15 = false
    ∧ (make_box p15).smallDrawerWarning = false
    ∧ (make_box p15).box.ops =
        [Op.drawBasesOp 2 1,
         Op.bucketsBox 84 42 8.4 4,
         Op.bucketsCut (bucketSketches p15) (2 - 8.4),
         Op.frontSurface 84 1.85 6.4 (-20),
         Op.mateLoft 83.5 41.5 3.75 5.56,
         Op.shaveShell 84 42 0.5 3.75] := by
  with_unfolding_all decide

/-- C6: with the label ledge enabled, a height below 13.25 mm makes
`draw_label_ledge` return its input model unchanged while raising the
`CannotDrawLabelLedgesWarning`; with height at least 13.25 mm no warning
is raised and the ledge cut is appended. -/
theorem c6_label_ledge (p : Properties) (hv : Valid p)
    (hl : p.draw_label_ledge = true) :
    (p.height < 13.25 → ∀ wp, draw_label_ledge wp p = (wp, true))
    ∧ (13.25 ≤ p.height → ∀ wp, draw_label_ledge wp p =
        ({ wp with ops := wp.ops ++
            [Op.labelLedgeCut (ledgeSketches p) (p.width - 1.5)] }, false)) := by
  have h1325 : (12 : ℚ) + 0.75 + 0.5 = 13.25 := by norm_num
  constructor
  · intro hh wp
    unfold draw_label_ledge
    rw [hl]
    simp only [Bool.not_true, Bool.false_eq_true, if_false]
    rw [if_pos (by rw [h1325]; exact hh)]
  · intro hh wp
    unfold draw_label_ledge
    rw [hl]
    simp only [Bool.not_true, Bool.false_eq_true, if_false]
    rw [if_neg (by rw [h1325]; exact not_lt.mpr hh)]

/-- C6 witness: at `units_high = 2` (height 8.4 mm) the ledge stage
returns its input unchanged and warns; at `units_high = 3` (height
15.4 mm) it appends the ledge cut and does not warn. -/
theorem c6_label_ledge_witness :
    draw_label_ledge initialWorkplane pLow = (initialWorkplane, true)
    ∧ draw_label_ledge initialWorkplane pHigh =
        ({ initialWorkplane with ops :=
            [Op.labelLedgeCut (ledgeSketches pHigh) (pHigh.width - 1.5)] }, false) :=
  ⟨(c6_label_ledge pLow (by decide) (by decide)).1 (by norm_num [Properties.height, pLow])
      initialWorkplane,
   (c6_label_ledge pHigh (by decide) (by decide)).2 (by norm_num [Properties.height, pHigh])
      initialWorkplane⟩

/-- C7: with both hole flags set, `draw_magnet_bore_holes` appends the
counterbored screw hole `cboreHole(3, 6.5, 2.4, 6)` on the 26 mm
construction square, and adds no plain magnet bore: `make_screw_hole`
takes precedence over `make_magnet_hole`. -/
theorem c7_screw_precedence (p : Properties) (hv : Valid p)
    (hm : p.make_magnet_hole = true) (hs : p.make_screw_hole = true) :
    ∀ wp, (draw_magnet_bore_holes wp p).ops =
        wp.ops ++ [Op.cboreHoles 26 3 6.5 2.4 6]
      ∧ (draw_magnet_bore_holes wp p).ops.filter Op.isMagnetHole =
        wp.ops.filter Op.isMagnetHole := by
  intro wp
  unfold draw_magnet_bore_holes
  rw [hm, hs]
  simp [List.filter_append, Op.isMagnetHole]

/-- C7 witness: the screw-precedence behaviour evaluated on `pBoth` and
the fresh workplane. -/
theorem c7_screw_precedence_witness :
    (draw_magnet_bore_holes initialWorkplane pBoth).ops =
        initialWorkplane.ops ++ [Op.cboreHoles 26 3 6.5 2.4 6]
    ∧ (draw_magnet_bore_holes initialWorkplane pBoth).ops.filter Op.isMagnetHole =
        initialWorkplane.ops.filter Op.isMagnetHole :=
  c7_screw_precedence pBoth (by decide) (by decide) (by decide) initialWorkplane

/-- C8 counterexample: with both hole flags false on the valid
configuration `pFlagsOff`, `draw_magnet_bore_holes` does not return its
input unchanged — line 315 of the source sets the workplane's `zDir` to
`(0, 0, -1)` before the flag check, so the workplane orientation is
modified even in the "no-op" case. -/
theorem c8_counterexample :
    Valid pFlagsOff
    ∧ pFlagsOff.make_magnet_hole = false
    ∧ pFlagsOff.make_screw_hole = false
    ∧ draw_magnet_bore_holes initialWorkplane pFlagsOff ≠ initialWorkplane
    ∧ (draw_magnet_bore_holes initialWorkplane pFlagsOff).zDir ≠ initialWorkplane.zDir := by
  with_unfolding_all decide

/-- C8 as amended: with both hole flags false the stage cuts no holes and
leaves the operation list unchanged, but it does set the workplane's
z-direction to `(0, 0, -1)`. -/
theorem c8_noop_except_zdir (p : Properties) (hv : Valid p)
    (hm : p.make_magnet_hole = false) (hs : p.make_screw_hole = false) :
    ∀ wp, (draw_magnet_bore_holes wp p).ops = wp.ops
      ∧ (draw_magnet_bore_holes wp p).zDir = ⟨0, 0, -1⟩ := by
  intro wp
  unfold draw_magnet_bore_holes
  rw [hm, hs]
  simp

/-- C8 witness: the amended no-op behaviour evaluated on `pFlagsOff` and
the fresh workplane. -/
theorem c8_noop_except_zdir_witness :
    (draw_magnet_bore_holes initialWorkplane pFlagsOff).ops = initialWorkplane.ops
    ∧ (draw_magnet_bore_holes initialWorkplane pFlagsOff).zDir = ⟨0, 0, -1⟩ :=
  c8_noop_except_zdir pFlagsOff (by decide) (by decide) (by decide) initialWorkplane

/-- C10: two valid configurations agreeing on `units_wide`, `units_long`,
`units_high` and `divisions` but differing arbitrarily in the four
feature flags produce identical drawer sketches (widths and positions),
the same uniform row height, and the same small-drawer warning flag. -/
theorem c10_layout_flag_independent (p1 p2 : Properties)
    (hv1 : Valid p1) (hv2 : Valid p2)
    (hw : p1.units_wide = p2.units_wide) (hl : p1.units_long = p2.units_long)
    (hh : p1.units_high = p2.units_high) (hd : p1.divisions = p2.divisions) :
    bucketSketches p1 = bucketSketches p2
    ∧ smallDrawerFlag p1 = smallDrawerFlag p2
    ∧ bucketHeight p1.length (p1.units_long : ℚ) =
        bucketHeight p2.length (p2.units_long : ℚ) := by
  have hW : p1.width = p2.width := by unfold Properties.width; rw [hw]
  have hL : p1.length = p2.length := by unfold Properties.length; rw [hl]
  have huL : ((p1.units_long : ℚ)) = ((p2.units_long : ℚ)) := by rw [hl]
  refine ⟨?_, ?_, ?_⟩
  · unfold bucketSketches; rw [hW, hL, huL, hd]
  · unfold smallDrawerFlag; rw [hW, hd]
  · rw [hL, huL]

/-- C10 witness: the generate.py configuration with scoop and ledge on
versus all flags off yields the same sketches, warning flag and row
height. -/
theorem c10_layout_flag_independent_witness :
    bucketSketches cfgA = bucketSketches cfgB
    ∧ smallDrawerFlag cfgA = smallDrawerFlag cfgB
    ∧ bucketHeight cfgA.length (cfgA.units_long : ℚ) =
        bucketHeight cfgB.length (cfgB.units_long : ℚ) :=
  c10_layout_flag_independent cfgA cfgB (by decide) (by decide)
    (by decide) (by decide) (by decide) (by decide)

lemma drawRowSketches_map_rectW (W L h yo : ℚ) :
    ∀ (ws : List ℚ) (xo : ℚ), (drawRowSketches W L h yo ws xo).map Sketch.rectW = ws := by
  intro ws
  induction ws with
  | nil => intro xo; rfl
  | cons w rest ih =>
    intro xo
    rw [drawRowSketches, List.map_cons, ih]

lemma drawRowSketches_rectH (W L h yo : ℚ) :
    ∀ (ws : List ℚ) (xo : ℚ), ∀ s ∈ drawRowSketches W L h yo ws xo, s.rectH = h := by
  intro ws
  induction ws with
  | nil => intro xo s hs; cases hs
  | cons w rest ih =>
    intro xo s hs
    rw [drawRowSketches] at hs
    rcases List.mem_cons.mp hs with h1 | h1
    · rw [h1]
    · exact ih (xo + w + 1) s h1

lemma drawRowSketches_top (W L h yo : ℚ) :
    ∀ (ws : List ℚ) (xo : ℚ), ∀ s ∈ drawRowSketches W L h yo ws xo,
      Sketch.top s = L / 2 - yo := by
  intro ws
  induction ws with
  | nil => intro xo s hs; cases hs
  | cons w rest ih =>
    intro xo s hs
    rw [drawRowSketches] at hs
    rcases List.mem_cons.mp hs with h1 | h1
    · rw [h1]; unfold Sketch.top; simp only; ring
    · exact ih (xo + w + 1) s h1

lemma drawRowsSketches_map_rectW (W L uL : ℚ) :
    ∀ (ds : List Division) (yo : ℚ),
      (drawRowsSketches W L uL ds yo).map Sketch.rectW
        = (ds.map (fun row => rowWidths W (normalizeRow row))).flatten := by
  intro ds
  induction ds with
  | nil => intro yo; rfl
  | cons d rest ih =>
    intro yo
    rw [drawRowsSketches, List.map_append, List.map_cons, List.flatten_cons,
      drawRowSketches_map_rectW, ih]

lemma drawRowsSketches_rectH (W L uL : ℚ) :
    ∀ (ds : List Division) (yo : ℚ), ∀ s ∈ drawRowsSketches W L uL ds yo,
      s.rectH = bucketHeight L uL := by
  intro ds
  induction ds with
  | nil => intro yo s hs; cases hs
  | cons d rest ih =>
    intro yo s hs
    rw [drawRowsSketches] at hs
    rcases List.mem_append.mp hs with h1 | h1
    · exact drawRowSketches_rectH W L _ yo _ 1 s h1
    · exact ih _ s h1

/-- C1: for every valid configuration, the derived dimensions follow the
stated formulas; an integer row entry `n` normalizes to `n` equal weights
of 1; each row's drawer widths are the rounded weighted shares of
`width - (row_drawer_count + 1)`; the widths of the sketches emitted by
`draw_buckets` are exactly the concatenation of those per-row width
lists; and every emitted sketch has the uniform row height
`(length - (units_long + 1)) / units_long`. -/
theorem c1_layout (p : Properties) (hv : Valid p) :
    p.width = (p.units_wide : ℚ) * 42
    ∧ p.length = (p.units_long : ℚ) * 42
    ∧ p.height = (p.units_high : ℚ) * 7 - 5.6
    ∧ (∀ n : Int, normalizeRow (Sum.inr n) = List.replicate n.toNat 1)
    ∧ (∀ row ∈ p.divisions,
        rowWidths p.width (normalizeRow row)
          = (normalizeRow row).map (fun r =>
              round2 (r / (normalizeRow row).sum *
                (p.width - (((normalizeRow row).length : ℚ) + 1)))))
    ∧ (bucketSketches p).map Sketch.rectW
        = (p.divisions.map (fun row => rowWidths p.width (normalizeRow row))).flatten
    ∧ ∀ s ∈ bucketSketches p,
        s.rectH = (p.length - ((p.units_long : ℚ) + 1)) / (p.units_long : ℚ) := by
  refine ⟨rfl, rfl, rfl, fun n => rfl, fun row _ => rfl, ?_, ?_⟩
  · exact drawRowsSketches_map_rectW p.width p.length (p.units_long : ℚ) p.divisions 1
  · intro s hs
    exact drawRowsSketches_rectH p.width p.length (p.units_long : ℚ) p.divisions 1 s hs

/-- C1 witness: the layout formulas evaluated on the generate.py
configuration. -/
theorem c1_layout_witness :
    (bucketSketches cfgA).map Sketch.rectW
      = (cfgA.divisions.map (fun row => rowWidths cfgA.width (normalizeRow row))).flatten :=
  (c1_layout cfgA (by decide)).2.2.2.2.2.1

lemma posWeights_mem (row : Division) (h : posWeights row = true) :
    ∀ w ∈ normalizeRow row, 0 < w := by
  cases row with
  | inl ws =>
    intro w hw
    unfold posWeights at h
    rw [Bool.and_eq_true, List.all_eq_true] at h
    exact of_decide_eq_true (h.2 w hw)
  | inr n =>
    intro w hw
    unfold normalizeRow at hw
    rw [List.eq_of_mem_replicate hw]
    norm_num

lemma posWeights_sum_pos (row : Division) (h : posWeights row = true) :
    0 < (normalizeRow row).sum := by
  cases row with
  | inl ws =>
    unfold posWeights at h
    rw [Bool.and_eq_true] at h
    apply List.sum_pos
    · exact posWeights_mem (Sum.inl ws) (by unfold posWeights; rw [Bool.and_eq_true]; exact h)
    · intro hnil
      rw [show normalizeRow (Sum.inl ws) = ws from rfl] at hnil
      rw [hnil] at h
      simp at h
  | inr n =>
    have hn : 0 < n := of_decide_eq_true h
    unfold normalizeRow
    rw [List.sum_replicate, nsmul_eq_mul, mul_one]
    have : 0 < n.toNat := by omega
    exact_mod_cast this

lemma sum_map_sub_le (c : ℚ) (f g : ℚ → ℚ) :
    ∀ ws : List ℚ, (∀ w ∈ ws, |f w - g w| ≤ c) →
      |(ws.map f).sum - (ws.map g).sum| ≤ c * ws.length := by
  intro ws
  induction ws with
  | nil => intro _; simp
  | cons w rest ih =>
    intro h
    have h1 := h w (List.mem_cons_self w rest)
    have h2 := ih (fun x hx => h x (List.mem_cons_of_mem w hx))
    simp only [List.map_cons, List.sum_cons, List.length_cons]
    have heq : f w + (rest.map f).sum - (g w + (rest.map g).sum)
        = (f w - g w) + ((rest.map f).sum - (rest.map g).sum) := by ring
    rw [heq]
    calc |(f w - g w) + ((rest.map f).sum - (rest.map g).sum)|
        ≤ |f w - g w| + |(rest.map f).sum - (rest.map g).sum| := abs_add _ _
      _ ≤ c + c * rest.length := by linarith
      _ = c * ((rest.length : ℚ) + 1) := by ring
      _ = c * ((rest.length + 1 : ℕ) : ℚ) := by push_cast; ring

lemma sum_map_mul_const (ws : List ℚ) (c : ℚ) :
    (ws.map (fun r => r * c)).sum = ws.sum * c := by
  induction ws with
  | nil => simp
  | cons w rest ih => simp only [List.map_cons, List.sum_cons, ih]; ring

lemma sum_map_share (ws : List ℚ) (A : ℚ) (h : ws.sum ≠ 0) :
    (ws.map (fun r => r / ws.sum * A)).sum = A := by
  have hcongr : ∀ r ∈ ws, r / ws.sum * A = r * (A / ws.sum) := fun r _ => by ring
  rw [List.map_congr_left hcongr, sum_map_mul_const]
  field_simp

/-- C3: for every valid configuration with positive weights and every
row, the sum of the computed (rounded) drawer widths plus
`(drawer_count + 1)` millimetres of gaps equals the derived width to
within an accumulated rounding error of at most `0.01 · drawer_count`
millimetres. -/
theorem c3_row_width_sum (p : Properties) (hv : Valid p)
    (hpos : posDivisions p = true) :
    ∀ row ∈ p.divisions,
      |(rowWidths p.width (normalizeRow row)).sum
          + (((normalizeRow row).length : ℚ) + 1) - p.width|
        ≤ 1 / 100 * ((normalizeRow row).length : ℚ) := by
  intro row hrow
  have hpw : posWeights row = true := by
    unfold posDivisions at hpos
    exact List.all_eq_true.mp hpos row hrow
  have hsum : 0 < (normalizeRow row).sum := posWeights_sum_pos row hpw
  set ws := normalizeRow row with hws
  set A := p.width - ((ws.length : ℚ) + 1) with hA
  have h1 : ∀ w ∈ ws, |round2 (w / ws.sum * A) - w / ws.sum * A| ≤ 1 / 200 :=
    fun w _ => abs_round2_sub _
  have h2 := sum_map_sub_le (1 / 200)
    (fun w => round2 (w / ws.sum * A)) (fun w => w / ws.sum * A) ws h1
  rw [sum_map_share ws A (ne_of_gt hsum)] at h2
  have hgoal : (rowWidths p.width ws).sum + ((ws.length : ℚ) + 1) - p.width
      = (ws.map (fun w => round2 (w / ws.sum * A))).sum - A := by
    unfold rowWidths
    rw [← hA]
    ring
  rw [hgoal]
  have hlen : (0 : ℚ) ≤ (ws.length : ℚ) := Nat.cast_nonneg _
  linarith

/-- C3 witness: the per-row width-sum bound evaluated on the two-drawer
configuration `pNine`. -/
theorem c3_row_width_sum_witness :
    |(rowWidths pNine.width (normalizeRow (Sum.inr 2))).sum
        + (((normalizeRow (Sum.inr 2)).length : ℚ) + 1) - pNine.width|
      ≤ 1 / 100 * ((normalizeRow (Sum.inr 2)).length : ℚ) :=
  c3_row_width_sum pNine (by decide) (by decide) (Sum.inr 2)
    (by simp [pNine])

lemma drawRowSketches_left_lb (W L h yo : ℚ) :
    ∀ (ws : List ℚ) (xo : ℚ), (∀ w ∈ ws, 0 ≤ w) →
      ∀ s ∈ drawRowSketches W L h yo ws xo, -W / 2 + xo ≤ Sketch.left s := by
  intro ws
  induction ws with
  | nil => intro xo _ s hs; cases hs
  | cons w rest ih =>
    intro xo hpos s hs
    have hw : 0 ≤ w := hpos w (List.mem_cons_self w rest)
    rw [drawRowSketches] at hs
    rcases List.mem_cons.mp hs with h1 | h1
    · rw [h1]; unfold Sketch.left; simp only; linarith
    · have := ih (xo + w + 1) (fun x hx => hpos x (List.mem_cons_of_mem w hx)) s h1
      linarith

lemma drawRowSketches_chain (W L h yo : ℚ) :
    ∀ (ws : List ℚ) (xo : ℚ),
      List.Chain' (fun a b => Sketch.left b = Sketch.right a + 1)
        (drawRowSketches W L h yo ws xo) := by
  intro ws
  induction ws with
  | nil => intro xo; exact List.chain'_nil
  | cons w rest ih =>
    intro xo
    rw [drawRowSketches]
    apply List.chain'_cons'.mpr
    refine ⟨?_, ih (xo + w + 1)⟩
    intro b hb
    cases rest with
    | nil => rw [drawRowSketches] at hb; cases hb
    | cons w2 r2 =>
      rw [drawRowSketches] at hb
      simp only [List.head?_cons, Option.mem_some_iff] at hb
      rw [← hb]
      unfold Sketch.left Sketch.right
      simp only
      ring

lemma drawRowSketches_sep (W L h yo : ℚ) :
    ∀ (ws : List ℚ) (xo : ℚ), (∀ w ∈ ws, 0 ≤ w) →
      List.Pairwise (fun a b => Sketch.right a < Sketch.left b)
        (drawRowSketches W L h yo ws xo) := by
  intro ws
  induction ws with
  | nil => intro xo _; exact List.Pairwise.nil
  | cons w rest ih =>
    intro xo hpos
    have hw : 0 ≤ w := hpos w (List.mem_cons_self w rest)
    have htail : ∀ x ∈ rest, 0 ≤ x := fun x hx => hpos x (List.mem_cons_of_mem w hx)
    rw [drawRowSketches]
    refine List.Pairwise.cons ?_ (ih (xo + w + 1) htail)
    intro b hb
    have hlb := drawRowSketches_left_lb W L h yo rest (xo + w + 1) htail b hb
    unfold Sketch.left at hlb ⊢
    unfold Sketch.right
    simp only
    linarith

lemma drawRowSketches_mono (W L h yo : ℚ) :
    ∀ (ws : List ℚ) (xo : ℚ), (∀ w ∈ ws, 0 ≤ w) →
      List.Pairwise (fun a b => Sketch.left a < Sketch.left b)
        (drawRowSketches W L h yo ws xo) := by
  intro ws
  induction ws with
  | nil => intro xo _; exact List.Pairwise.nil
  | cons w rest ih =>
    intro xo hpos
    have hw : 0 ≤ w := hpos w (List.mem_cons_self w rest)
    have htail : ∀ x ∈ rest, 0 ≤ x := fun x hx => hpos x (List.mem_cons_of_mem w hx)
    rw [drawRowSketches]
    refine List.Pairwise.cons ?_ (ih (xo + w + 1) htail)
    intro b hb
    have hlb := drawRowSketches_left_lb W L h yo rest (xo + w + 1) htail b hb
    unfold Sketch.left at hlb ⊢
    simp only
    linarith

lemma drawRowSketches_head (W L h yo : ℚ) (ws : List ℚ) (xo : ℚ) :
    ∀ s, (drawRowSketches W L h yo ws xo).head? = some s →
      Sketch.left s = -W / 2 + xo := by
  intro s hs
  cases ws with
  | nil => rw [drawRowSketches] at hs; cases hs
  | cons w rest =>
    rw [drawRowSketches] at hs
    simp only [List.head?_cons, Option.some_inj] at hs
    rw [← hs]
    unfold Sketch.left
    simp only
    ring

lemma rowWidths_nonneg (W : ℚ) (row : Division) (hpw : posWeights row = true)
    (hfit : ((normalizeRow row).length : ℚ) + 1 ≤ W) :
    ∀ w ∈ rowWidths W (normalizeRow row), 0 ≤ w := by
  intro w hw
  unfold rowWidths at hw
  rw [List.mem_map] at hw
  obtain ⟨r, hr, rfl⟩ := hw
  apply round2_nonneg
  have h1 : 0 < r / (normalizeRow row).sum :=
    div_pos (posWeights_mem row hpw r hr) (posWeights_sum_pos row hpw)
  have h2 : 0 ≤ W - (((normalizeRow row).length : ℚ) + 1) := by linarith
  exact mul_nonneg (le_of_lt h1) h2

lemma drawRowsSketches_eq_flatten (W L uL : ℚ) :
    ∀ (ds : List Division) (yo : ℚ),
      drawRowsSketches W L uL ds yo =
        ((List.range ds.length).map (fun (k : Nat) =>
          drawRowSketches W L (bucketHeight L uL)
            (yo + (k : ℚ) * (bucketHeight L uL + 1))
            (rowWidths W (normalizeRow (ds.getD k (Sum.inr 0)))) 1)).flatten := by
  intro ds
  induction ds with
  | nil => intro yo; rfl
  | cons d rest ih =>
    intro yo
    rw [drawRowsSketches, List.length_cons, List.range_succ_eq_map,
      List.map_cons, List.flatten_cons, List.map_map]
    congr 1
    · norm_num
    · rw [ih (yo + bucketHeight L uL + 1)]
      congr 1
      apply List.map_congr_left
      intro k _
      simp only [Function.comp_apply, List.getD_cons_succ]
      congr 1
      push_cast
      ring

/-- C4 as amended: for every valid configuration with positive weights
whose rows fit, i.e. `row_drawer_count + 1 ≤ width` for every row (so
every computed width is nonnegative), the sketches of `draw_buckets`
decompose row by row; within each row the drawer rectangles are pairwise
separated (right edge strictly left of every later left edge, hence
non-overlapping), their x-positions are strictly increasing, the first
drawer starts at the 1 mm margin `-width/2 + 1`, consecutive drawers
advance by `width + 1` (next left edge = previous right edge + 1), and
the row's sketches sit at the top offset `length/2 - y_origin` with
`y_origin = 1 + k·(row_height + 1)` accumulating top to bottom. -/
theorem c4_row_placement (p : Properties) (hv : Valid p)
    (hpos : posDivisions p = true)
    (hfit : ∀ row ∈ p.divisions, ((normalizeRow row).length : ℚ) + 1 ≤ p.width) :
    bucketSketches p = ((List.range p.divisions.length).map (rowSketches p)).flatten
    ∧ ∀ k, k < p.divisions.length →
        List.Pairwise (fun a b => Sketch.right a < Sketch.left b) (rowSketches p k)
        ∧ List.Pairwise (fun a b => Sketch.left a < Sketch.left b) (rowSketches p k)
        ∧ (∀ s, (rowSketches p k).head? = some s → Sketch.left s = -p.width / 2 + 1)
        ∧ List.Chain' (fun a b => Sketch.left b = Sketch.right a + 1) (rowSketches p k)
        ∧ ∀ s ∈ rowSketches p k,
            Sketch.top s = p.length / 2 -
              (1 + (k : ℚ) * (bucketHeight p.length (p.units_long : ℚ) + 1)) := by
  constructor
  · unfold bucketSketches
    rw [drawRowsSketches_eq_flatten p.width p.length ((p.units_long : ℚ)) p.divisions 1]
    rfl
  · intro k hk
    have hmem : p.divisions.getD k (Sum.inr 0) ∈ p.divisions := by
      rw [List.getD_eq_getElem p.divisions (Sum.inr 0) hk]
      exact List.getElem_mem hk
    have hpw : posWeights (p.divisions.getD k (Sum.inr 0)) = true := by
      unfold posDivisions at hpos
      exact List.all_eq_true.mp hpos _ hmem
    have hnn := rowWidths_nonneg p.width (p.divisions.getD k (Sum.inr 0)) hpw (hfit _ hmem)
    refine ⟨drawRowSketches_sep _ _ _ _ _ 1 hnn,
      drawRowSketches_mono _ _ _ _ _ 1 hnn, ?_,
      drawRowSketches_chain _ _ _ _ _ 1, ?_⟩
    · intro s hs
      exact drawRowSketches_head _ _ _ _ _ 1 s hs
    · intro s hs
      exact drawRowSketches_top _ _ _ _ _ 1 s hs

/-- C4 witness: the row-placement properties evaluated on the two-drawer
configuration `pNine`. -/
theorem c4_row_placement_witness :
    bucketSketches pNine =
      ((List.range pNine.divisions.length).map (rowSketches pNine)).flatten
    ∧ List.Pairwise (fun a b => Sketch.right a < Sketch.left b) (rowSketches pNine 0) :=
  ⟨(c4_row_placement pNine (by decide) (by decide)
      (by intro row hrow; simp only [pNine] at hrow; rw [List.mem_singleton.mp hrow]
          with_unfolding_all decide)).1,
   ((c4_row_placement pNine (by decide) (by decide)
      (by intro row hrow; simp only [pNine] at hrow; rw [List.mem_singleton.mp hrow]
          with_unfolding_all decide)).2 0 (by decide)).1⟩

/-- C4 counterexample to the claim as stated: `pbad` is a valid
configuration (43 drawers in a single 42 mm-wide row, weights
`98, 1, …, 1`), yet the x-positions of its first row's drawer rectangles
are not strictly increasing — the available width `42 - 44 = -2` is
negative, the first drawer's width rounds to `-1.4`, and the second
drawer is placed 0.4 mm to the left of the first. -/
theorem c4_counterexample :
    Valid pbad
    ∧ posDivisions pbad = true
    ∧ (((rowSketches pbad 0).map Sketch.left).take 2 = [-20, -102/5]
        ∧ ¬ List.Pairwise (fun a b => Sketch.left a < Sketch.left b)
            (rowSketches pbad 0)) := by
  set_option maxRecDepth 10000 in
  with_unfolding_all decide

/-- C9: with both `draw_finger_scoop` and `draw_label_ledge` false, the
scoop and ledge stages return their input model unchanged (no-ops, with
no warning), and the pipeline's final operation list equals the enabled
pipeline's list with the scoop/ledge cuts filtered out — the base,
buckets, front surface, rim, fastener and shell operations are identical
in both cases. -/
theorem c9_disabled_stages (p : Properties) (hv : Valid p)
    (hs : p.draw_finger_scoop = false) (hl : p.draw_label_ledge = false) :
    (∀ wp, draw_finger_scoops wp p = wp)
    ∧ (∀ wp, draw_label_ledge wp p = (wp, false))
    ∧ (make_box p).box.ops =
        ((make_box
            { p with draw_finger_scoop := true, draw_label_ledge := true }).box.ops).filter
          (fun o => !o.isScoopOrLedgeCut) := by
  refine ⟨?_, ?_, ?_⟩
  · intro wp
    unfold draw_finger_scoops
    rw [hs]
    rfl
  · intro wp
    unfold draw_label_ledge
    rw [hl]
    rfl
  · simp only [make_box, draw_bases, draw_buckets, draw_front_surface,
      draw_finger_scoops, draw_label_ledge, draw_mate, draw_magnet_bore_holes,
      shave_outer_shell, hs, hl, Bool.not_false, Bool.not_true, if_true,
      Bool.false_eq_true, if_false]
    split_ifs <;>
      simp [List.filter_append, List.filter, Op.isScoopOrLedgeCut,
        Properties.width, Properties.length, Properties.height,
        bucketSketches, smallDrawerFlag, initialWorkplane]

/-- C9 witness: the disabled/enabled pipeline comparison evaluated on
`pBoth` (both feature flags off, both hole flags on). -/
theorem c9_disabled_stages_witness :
    (make_box pBoth).box.ops =
      ((make_box
          { pBoth with draw_finger_scoop := true, draw_label_ledge := true }).box.ops).filter
        (fun o => !o.isScoopOrLedgeCut) :=
  (c9_disabled_stages pBoth (by decide) (by decide) (by decide)).2.2
